import Mathlib

/-!
# LLMBridge — verification of the natural-language specification against the code

Shallow embedding of the parts of the LLMBridge repository (an OpenAI-compatible
bridge that routes chat-completion requests to browser tabs over WebSockets or to
direct upstream APIs) that the audited claims are about.  Every definition is a
translation of a concrete piece of the Python source, referenced by file and line
in its doc comment.  Python dictionaries are modelled as association lists,
Python objects by the tagged type `PyVal`, wall-clock times by integers, and
float temperatures by rationals.
-/

namespace LLMBridge

/-- A generic Python value (the subset of object shapes the claims need). -/
inductive PyVal where
  | str : String → PyVal
  | int : Int → PyVal
  | rat : ℚ → PyVal
  | bool : Bool → PyVal
  | pynone : PyVal
  | list : List PyVal → PyVal
  | dict : List (String × PyVal) → PyVal

/-- Dictionary lookup (`d.get(key)` / `d[key]`), modelling `dict` as an
association list with unique keys, first match wins. -/
def alookup {α : Type} : List (String × α) → String → Option α
  | [], _ => none
  | (k, v) :: rest, key => if k = key then some v else alookup rest key

/-- Dictionary update `d[key] = v`: replaces the first binding of `key`
in place, or appends a new binding (Python dicts preserve insertion order). -/
def aset {α : Type} : List (String × α) → String → α → List (String × α)
  | [], key, v => [(key, v)]
  | (k, w) :: rest, key, v =>
    if k = key then (k, v) :: rest else (k, w) :: aset rest key v

/-- Dictionary deletion `del d[key]`. -/
def aerase {α : Type} : List (String × α) → String → List (String × α)
  | [], _ => []
  | (k, w) :: rest, key => if k = key then rest else (k, w) :: aerase rest key

/-- Lookup inside a `PyVal.dict`; `none` for any other shape. -/
def PyVal.dlookup : PyVal → String → Option PyVal
  | .dict kvs, key => alookup kvs key
  | _, _ => none

/-! ## C5 — per-model round-robin cursor

Source: `src/routes/api_routes.py`.

* Lines 444-452 (`chat_completions`): when `MODEL_ENDPOINT_MAP[model]` is a
  non-empty list, under `MODEL_ROUND_ROBIN_LOCK` the cursor is initialised to 0
  if absent, the entry at the current cursor is read (to detect Direct-API
  mode), and the cursor is stored back as `(current + 1) % len(list)`.
* Lines 1582-1604 (`handle_lmarena_request`): under the same lock the cursor is
  initialised to 0 if absent and the session mapping at the *current* cursor is
  selected; the cursor is **not** written (`selected_index_for_update` is saved
  into the request metadata at line 1660 but no code ever reads it back to
  advance the cursor).
-/

/-- `chat_completions` lines 444-452: returns the index read there (used only
for the Direct-API-mode check) and the new cursor value. `n` is the length of
the model's binding list. -/
def chatCompletionsRoundRobin (cursor : Option Nat) (n : Nat) : Nat × Nat :=
  let current := cursor.getD 0
  (current, (current + 1) % n)

/-- `handle_lmarena_request` lines 1582-1604: reads the cursor (initialising an
absent cursor to 0) without advancing it. -/
def handleLmarenaSelect (cursor : Option Nat) : Nat :=
  cursor.getD 0

/-- One admitted browser-tab request for a list-mapped model: both functions run
in sequence on the shared cursor.  Returns the index of the session binding the
request actually uses (the one `handle_lmarena_request` selects) and the cursor
value afterwards. -/
def tabRequestSelect (cursor : Option Nat) (n : Nat) : Nat × Nat :=
  let ccStep := chatCompletionsRoundRobin cursor n
  let used := handleLmarenaSelect (some ccStep.2)
  (used, ccStep.2)

/-- The binding indices used by successive requests starting from the given
cursor state, for a model mapped to a list of `n` bindings. -/
def tabRequestSelections (n : Nat) (cursor : Option Nat) : Nat → List Nat
  | 0 => []
  | k + 1 =>
    let step := tabRequestSelect cursor n
    step.1 :: tabRequestSelections n (some step.2) k

/-- The binding indices used by `k` sequential requests starting from a fresh
(per-process) cursor state (`MODEL_ROUND_ROBIN_INDEX` has no entry yet). -/
def tabRequestSequence (n k : Nat) : List Nat :=
  tabRequestSelections n none k

/-- The cursor value stored after `k` sequential requests from a fresh state. -/
def tabCursorAfter (n : Nat) (cursor : Option Nat) : Nat → Option Nat
  | 0 => cursor
  | k + 1 => tabCursorAfter n (some (tabRequestSelect cursor n).2) k

/-! ## C6 — temperature cap and the browser envelope

Source: `src/routes/api_routes.py` lines 1635-1640 (clamp) and 1801-1813 (the
`message_to_browser` wrapper); `src/services/message_converter.py` lines
717-724 (the dict returned by `convert_openai_to_lmarena_payload`).  The word
`temperature` does not occur anywhere in `message_converter.py`: the converter
neither reads nor writes a temperature, so the payload it returns is exactly
the four-key dict of lines 718-724, whatever the request contained. -/

/-- `api_routes.py` 1635-1640: clamp the request's temperature to the
binding's `max_temperature` when both are present and the request exceeds the
cap.  Arguments and result are the `temperature` entry of the OpenAI request
body (absent = `none`). -/
def applyTemperatureLimit (maxTemperature : Option ℚ) (temperature : Option ℚ) :
    Option ℚ :=
  match maxTemperature, temperature with
  | some cap, some t => if t > cap then some cap else some t
  | _, t => t

/-- `message_converter.py` 717-724: the payload dict returned by
`convert_openai_to_lmarena_payload`.  Its fields are the converter's final
message templates, optional target model id, session id and battle target; it
has no other keys. -/
def convertReturnPayload (messageTemplates targetModelId sessionId battleTarget : PyVal) :
    PyVal :=
  .dict [("message_templates", messageTemplates),
         ("target_model_id", targetModelId),
         ("session_id", sessionId),
         ("battle_target", battleTarget)]

/-- `api_routes.py` 1801-1813: the WebSocket envelope sent to the selected
browser tab. -/
def messageToBrowserEnvelope (requestId : String) (payload : PyVal)
    (retryConfig : PyVal) : PyVal :=
  .dict [("request_id", .str requestId),
         ("payload", payload),
         ("retry_config", retryConfig)]

/-! ## C7 — routing of inbound tab frames

Source: `src/routes/websocket_routes.py` lines 224-249.  A frame
`\x7b"request_id": R, "data": D\x7d` arriving on tab `T`:

* no open channel for `R` → warning, nothing enqueued (line 249);
* channel open and metadata recorded: if `transfer_allowed` (default `True`
  via `metadata.get("transfer_allowed", True)`) the frame is enqueued from any
  tab; otherwise it is enqueued only when `T` equals the recorded `tab_id`,
  else discarded with a warning (lines 227-244);
* channel open but no metadata recorded: enqueued unconditionally
  ("backward compatibility", lines 245-247).
-/

/-- The slice of a `request_metadata` entry the frame router reads.  Both
fields are read with `.get`, so absence is representable. -/
structure RequestMeta where
  tabId : Option String
  transferAllowed : Option Bool
deriving DecidableEq, Repr

/-- What the router did with a frame. -/
inductive RouteAction where
  | enqueued
  | rejectedWarning
  | unknownChannel
deriving DecidableEq, Repr

/-- `websocket_routes.py` 224-249: route one inbound frame.  Returns the new
`response_channels` map (queues modelled as the list of frames enqueued so
far) and the action taken. -/
def routeTabFrame (channels : List (String × List PyVal))
    (metadata : List (String × RequestMeta)) (senderTab requestId : String)
    (data : PyVal) : List (String × List PyVal) × RouteAction :=
  match alookup channels requestId with
  | none => (channels, .unknownChannel)
  | some q =>
    match alookup metadata requestId with
    | some md =>
      if md.transferAllowed.getD true then
        (aset channels requestId (q ++ [data]), .enqueued)
      else if md.tabId = some senderTab then
        (aset channels requestId (q ++ [data]), .enqueued)
      else
        (channels, .rejectedWarning)
    | none => (aset channels requestId (q ++ [data]), .enqueued)

/-! ## Substring utilities

Used to model Python's `sub in s`, `s.split(sub, 1)` and `s.partition(sub)`
on character lists. -/

/-- Does `sep` occur at the head of `l`? -/
def headMatches (sep l : List Char) : Bool :=
  decide (l.take sep.length = sep)

/-- Index of the first occurrence of `sep` in `l` (Python `l.find(sep)` /
`sep in l`). -/
def firstOcc (sep : List Char) : List Char → Option Nat
  | [] => if headMatches sep [] then some 0 else none
  | c :: t =>
    if headMatches sep (c :: t) then some 0
    else (firstOcc sep t).map (· + 1)

/-- Python `l.split(sep, 1)` when `sep` occurs: text before the first
occurrence and text after it. -/
def splitFirst (sep l : List Char) : Option (List Char × List Char) :=
  (firstOcc sep l).map (fun i => (l.take i, l.drop (i + sep.length)))

/-- Number of indices at which `sep` occurs in `l`. -/
def occCount (sep : List Char) : List Char → Nat
  | [] => if headMatches sep [] then 1 else 0
  | c :: t => (if headMatches sep (c :: t) then 1 else 0) + occCount sep t

/-- `sep` occurs in `l` at index `j`. -/
def occursAt (sep l : List Char) (j : Nat) : Prop :=
  (l.drop j).take sep.length = sep

/-! ## C1 — configuration hot reload

Source: `src/core/config_loader.py` lines 30-102 (`_parse_jsonc`), 105-143
(`load_config`) and 184-225 (`load_model_endpoint_map`).

`json.loads` is Python standard library; it is embedded here as an honest
recursive-descent parser `jsonLoads` over the JSON grammar (objects built with
last-key-wins dictionary semantics).  `_parse_jsonc`'s comment stripping is
translated line by line. -/

/-- A parsed JSON value.  Numbers keep the integer part and the literal
fraction/exponent text so no floating point is needed. -/
inductive Json where
  | null : Json
  | jbool : Bool → Json
  | jnum : Int → String → Json
  | jstr : String → Json
  | jarr : List Json → Json
  | jobj : List (String × Json) → Json

/-- JSON whitespace (the characters `json.loads` skips between tokens). -/
def jsonWs (c : Char) : Bool :=
  c = ' ' || c = '\t' || c = '\n' || c = '\r'

/-- Skip JSON whitespace. -/
def skipWs (cs : List Char) : List Char :=
  cs.dropWhile jsonWs

/-- Hexadecimal digit value. -/
def hexVal? (c : Char) : Option Nat :=
  if '0' ≤ c ∧ c ≤ '9' then some (c.toNat - '0'.toNat)
  else if 'a' ≤ c ∧ c ≤ 'f' then some (c.toNat - 'a'.toNat + 10)
  else if 'A' ≤ c ∧ c ≤ 'F' then some (c.toNat - 'A'.toNat + 10)
  else none

private def braceOpen : Char := Char.ofNat 123

private def braceClose : Char := Char.ofNat 125

/-- Parse the body of a JSON string after the opening quote: returns the
decoded characters and the remainder after the closing quote. -/
def parseStringBody : List Char → Option (List Char × List Char)
  | [] => none
  | '"' :: rest => some ([], rest)
  | '\\' :: '"' :: r => (parseStringBody r).map (fun p => ('"' :: p.1, p.2))
  | '\\' :: '\\' :: r => (parseStringBody r).map (fun p => ('\\' :: p.1, p.2))
  | '\\' :: '/' :: r => (parseStringBody r).map (fun p => ('/' :: p.1, p.2))
  | '\\' :: 'b' :: r =>
    (parseStringBody r).map (fun p => (Char.ofNat 8 :: p.1, p.2))
  | '\\' :: 'f' :: r =>
    (parseStringBody r).map (fun p => (Char.ofNat 12 :: p.1, p.2))
  | '\\' :: 'n' :: r => (parseStringBody r).map (fun p => ('\n' :: p.1, p.2))
  | '\\' :: 'r' :: r => (parseStringBody r).map (fun p => ('\r' :: p.1, p.2))
  | '\\' :: 't' :: r => (parseStringBody r).map (fun p => ('\t' :: p.1, p.2))
  | '\\' :: 'u' :: a :: b :: c :: d :: r =>
    match hexVal? a, hexVal? b, hexVal? c, hexVal? d with
    | some x, some y, some z, some w =>
      (parseStringBody r).map
        (fun p => (Char.ofNat (((x * 16 + y) * 16 + z) * 16 + w) :: p.1, p.2))
    | _, _, _, _ => none
  | '\\' :: _ => none
  | c :: r =>
    if c.toNat < 32 then none
    else (parseStringBody r).map (fun p => (c :: p.1, p.2))

/-- Parse a JSON number per the JSON grammar; the integer part is evaluated
and the fraction/exponent kept literally. -/
def parseNumber (cs : List Char) : Option (Json × List Char) :=
  let (neg, cs₁) :=
    match cs with
    | '-' :: r => (true, r)
    | _ => (false, cs)
  let intDigits := cs₁.takeWhile Char.isDigit
  let afterInt := cs₁.dropWhile Char.isDigit
  if intDigits.isEmpty then none
  else if intDigits.length > 1 ∧ intDigits.headD '0' = '0' then none
  else
    let iv : Int :=
      intDigits.foldl (fun acc c => acc * 10 + Int.ofNat (c.toNat - '0'.toNat)) 0
    let iv := if neg then -iv else iv
    let (fracChars, afterFrac) :=
      match afterInt with
      | '.' :: r =>
        let ds := r.takeWhile Char.isDigit
        if ds.isEmpty then ([], '.' :: r)
        else ('.' :: ds, r.dropWhile Char.isDigit)
      | _ => ([], afterInt)
    if fracChars.isEmpty &&
        (match afterInt with | '.' :: _ => true | _ => false) then
      none
    else
      let (expChars, afterExp) :=
        match afterFrac with
        | 'e' :: '+' :: r =>
          let ds := r.takeWhile Char.isDigit
          if ds.isEmpty then ([], afterFrac)
          else ('e' :: '+' :: ds, r.dropWhile Char.isDigit)
        | 'e' :: '-' :: r =>
          let ds := r.takeWhile Char.isDigit
          if ds.isEmpty then ([], afterFrac)
          else ('e' :: '-' :: ds, r.dropWhile Char.isDigit)
        | 'e' :: r =>
          let ds := r.takeWhile Char.isDigit
          if ds.isEmpty then ([], afterFrac)
          else ('e' :: ds, r.dropWhile Char.isDigit)
        | 'E' :: '+' :: r =>
          let ds := r.takeWhile Char.isDigit
          if ds.isEmpty then ([], afterFrac)
          else ('E' :: '+' :: ds, r.dropWhile Char.isDigit)
        | 'E' :: '-' :: r =>
          let ds := r.takeWhile Char.isDigit
          if ds.isEmpty then ([], afterFrac)
          else ('E' :: '-' :: ds, r.dropWhile Char.isDigit)
        | 'E' :: r =>
          let ds := r.takeWhile Char.isDigit
          if ds.isEmpty then ([], afterFrac)
          else ('E' :: ds, r.dropWhile Char.isDigit)
        | _ => ([], afterFrac)
      some (.jnum iv (String.mk (fracChars ++ expChars)), afterExp)

mutual
/-- Parse one JSON value; `fuel` bounds nesting depth. -/
def parseValue : Nat → List Char → Option (Json × List Char)
  | 0, _ => none
  | fuel + 1, cs =>
    match skipWs cs with
    | 't' :: 'r' :: 'u' :: 'e' :: r => some (.jbool true, r)
    | 'f' :: 'a' :: 'l' :: 's' :: 'e' :: r => some (.jbool false, r)
    | 'n' :: 'u' :: 'l' :: 'l' :: r => some (.null, r)
    | '"' :: r => (parseStringBody r).map (fun p => (.jstr (String.mk p.1), p.2))
    | '[' :: r =>
      (match skipWs r with
       | ']' :: r₂ => some (.jarr [], r₂)
       | r₂ => (parseArrayRest fuel r₂).map (fun p => (.jarr p.1, p.2)))
    | c :: r =>
      if c = braceOpen then
        match skipWs r with
        | c₂ :: r₂ =>
          if c₂ = braceClose then some (.jobj [], r₂)
          else
            (parseObjRest fuel (c₂ :: r₂)).map
              (fun p => (.jobj (p.1.foldl (fun acc kv => aset acc kv.1 kv.2) []),
                p.2))
        | [] => none
      else parseNumber (c :: r)
    | [] => none

/-- Parse the elements of a non-empty JSON array up to `]`. -/
def parseArrayRest : Nat → List Char → Option (List Json × List Char)
  | 0, _ => none
  | fuel + 1, cs =>
    match parseValue fuel cs with
    | none => none
    | some (v, r) =>
      match skipWs r with
      | ',' :: r₂ =>
        (parseArrayRest fuel r₂).map (fun p => (v :: p.1, p.2))
      | ']' :: r₂ => some ([v], r₂)
      | _ => none

/-- Parse the members of a non-empty JSON object up to the closing brace. -/
def parseObjRest : Nat → List Char → Option (List (String × Json) × List Char)
  | 0, _ => none
  | fuel + 1, cs =>
    match skipWs cs with
    | '"' :: kr =>
      match parseStringBody kr with
      | none => none
      | some (key, r) =>
        match skipWs r with
        | ':' :: r₂ =>
          match parseValue fuel r₂ with
          | none => none
          | some (v, r₃) =>
            match skipWs r₃ with
            | ',' :: r₄ =>
              (parseObjRest fuel r₄).map
                (fun p => ((String.mk key, v) :: p.1, p.2))
            | c :: r₄ =>
              if c = braceClose then some ([(String.mk key, v)], r₄) else none
            | [] => none
        | _ => none
    | _ => none
end

/-- `json.loads`: parse a complete JSON document, requiring only whitespace
after the value. -/
def jsonLoads (s : String) : Option Json :=
  let cs := s.toList
  match parseValue (cs.length + 1) cs with
  | some (v, r) => if (skipWs r).isEmpty then some v else none
  | none => none

/-- Python `str` whitespace for `.strip()` (ASCII fragment). -/
def pyWs (c : Char) : Bool :=
  c = ' ' || c = '\t' || c = '\n' || c = '\r' || c = Char.ofNat 11 ||
    c = Char.ofNat 12

/-- Is the line blank after `.strip()`? -/
def isBlankLine (l : List Char) : Bool :=
  l.all pyWs

/-- `str.splitlines()` on the line terminators `\n`, `\r\n`, `\r`. -/
def splitLines (cs : List Char) : List (List Char) :=
  if cs.isEmpty then [] else go [] cs
where
  go (cur : List Char) : List Char → List (List Char)
    | [] => [cur.reverse]
    | '\r' :: '\n' :: r =>
      cur.reverse :: (if r.isEmpty then [] else go [] r)
    | '\r' :: r => cur.reverse :: (if r.isEmpty then [] else go [] r)
    | '\n' :: r => cur.reverse :: (if r.isEmpty then [] else go [] r)
    | c :: r => go (c :: cur) r

/-- `config_loader.py` 62-96: remove a `//` comment that is outside string
literals, tracking the in-string and escape states. -/
def stripLineComment : Bool → Bool → List Char → List Char
  | _, _, [] => []
  | inStr, true, c :: r => c :: stripLineComment inStr false r
  | inStr, false, c :: r =>
    if c = '\\' then c :: stripLineComment inStr true r
    else if c = '"' then c :: stripLineComment (!inStr) false r
    else if c = '/' ∧ ¬ inStr ∧ r.head? = some '/' then []
    else c :: stripLineComment inStr false r

/-- `config_loader.py` 49-100 for one line that is not inside a block
comment: handle a possible `/* ... */` (string contents are not respected
here, exactly as in the source), then strip a `//` comment.  Returns the
processed line and whether a block comment was left open. -/
def handleJsoncLine (line : List Char) : List Char × Bool :=
  let blockStep : List Char × Bool :=
    match splitFirst ['/', '*'] line with
    | none => (line, false)
    | some (before, after) =>
      match splitFirst ['*', '/'] after with
      | some (_, afterBlock) => (before ++ afterBlock, false)
      | none => (before, true)
  (stripLineComment false false blockStep.1, blockStep.2)

/-- `config_loader.py` 39-100: the per-line loop of `_parse_jsonc`, keeping
only processed lines that are not blank. -/
def stripJsoncLines : Bool → List (List Char) → List (List Char)
  | _, [] => []
  | true, line :: rest =>
    match splitFirst ['*', '/'] line with
    | none => stripJsoncLines true rest
    | some (_, after) =>
      let h := handleJsoncLine after
      (if isBlankLine h.1 then [] else [h.1]) ++ stripJsoncLines h.2 rest
  | false, line :: rest =>
    let h := handleJsoncLine line
    (if isBlankLine h.1 then [] else [h.1]) ++ stripJsoncLines h.2 rest

/-- `config_loader.py` 30-102 (`_parse_jsonc`): strip comments, join the kept
lines with newlines, and parse. -/
def parseJsonc (s : String) : Option Json :=
  jsonLoads
    (String.mk (List.intercalate ['\n'] (stripJsoncLines false (splitLines s.toList))))

/-- `config_loader.py` 105-143 (`load_config`): result of one call, given the
current `CONFIG` contents, the stored mtime for `config.jsonc`, the file's
current mtime (`none` means the file is missing) and its contents.  Returns
the `CONFIG` contents and stored mtime after the call.  When the parsed value
is not an object, `CONFIG.update` raises after `CONFIG.clear()` already ran,
so the stored map is empty in that case too. -/
def loadConfig (forceReload : Bool) (config : List (String × Json))
    (storedMtime : Int) (fileMtime : Option Int) (content : String) :
    List (String × Json) × Int :=
  match fileMtime with
  | none => ([], storedMtime)
  | some m =>
    if ¬ forceReload ∧ m = storedMtime then (config, storedMtime)
    else
      match parseJsonc content with
      | some (.jobj kvs) => (kvs, m)
      | some _ => ([], storedMtime)
      | none => ([], storedMtime)

/-- `config_loader.py` 184-225 (`load_model_endpoint_map`): result of one
call, same conventions as `loadConfig`.  Blank file contents load the empty
map (lines 210-212); a parse failure clears the map (lines 223-225). -/
def loadModelEndpointMap (forceReload : Bool)
    (endpointMap : List (String × Json)) (storedMtime : Int)
    (fileMtime : Option Int) (content : String) :
    List (String × Json) × Int :=
  match fileMtime with
  | none => ([], storedMtime)
  | some m =>
    if ¬ forceReload ∧ m = storedMtime then (endpointMap, storedMtime)
    else
      if isBlankLine content.toList then ([], m)
      else
        match jsonLoads content with
        | some (.jobj kvs) => (kvs, m)
        | some _ => ([], storedMtime)
        | none => ([], storedMtime)

/-! ## C2 — human-verification cool-down

Source: `src/services/stream_processor.py` lines 19-24 and 109-139, and
`src/routes/api_routes.py` lines 359-415.

`IS_REFRESHING_FOR_VERIFICATION : bool` and
`VERIFICATION_COOLDOWN_UNTIL : float | None` live in
`src/core/global_state.py` (lines 41-42).  They reach both
`_process_lmarena_stream` and `chat_completions` only as *function parameters*
(immutable Python values, passed by value).  `handle_cloudflare_verification`
(stream_processor.py 109-139) updates them through `nonlocal`, i.e. it rebinds
the enclosing function's local copies; no statement anywhere in the source
assigns the module-level globals.  The embedding therefore keeps two layers:
the process-wide pair, and the stream coroutine's local copy initialised from
it. -/

/-- The verification state pair as one record. -/
structure VerifState where
  refreshing : Bool
  cooldownUntil : Option Int
deriving DecidableEq, Repr

/-- Python truthiness of `VERIFICATION_COOLDOWN_UNTIL` (`None` and `0` are
falsy), used by the `if VERIFICATION_COOLDOWN_UNTIL:` test at line 133. -/
def optTruthy : Option Int → Bool
  | none => false
  | some c => c ≠ 0

/-- `stream_processor.py` 109-139 (`handle_cloudflare_verification`): on first
detection set the refreshing flag and a 25-second cool-down (sending a refresh
command and scheduling a reset, both elided as they do not touch this state
synchronously); on repeated detection only compute the message from the
remaining time.  Operates on the coroutine-local copy. -/
def handleCloudflareVerification (st : VerifState) (now : Int) :
    VerifState × String :=
  if ¬ st.refreshing then
    (⟨true, some (now + 25)⟩, "first detection: refresh sent, cooling down 25s")
  else if optTruthy st.cooldownUntil then
    let c := st.cooldownUntil.getD 0
    let remaining := max 0 (c - now)
    if remaining > 0 then (st, "cooldown remaining " ++ toString remaining)
    else (st, "waiting for verification")
  else (st, "waiting for verification")

/-- `api_routes.py` 406-415: the admission gate at the top of
`chat_completions`.  Returns `some r` when the request is rejected with a 503
carrying `r` remaining seconds (`r = max 0 (remaining - 3)`), `none` when the
request is admitted past the gate. -/
def verificationGate (cooldownUntil : Option Int) (now : Int) : Option Int :=
  match cooldownUntil with
  | none => none
  | some c =>
    let remaining := c - now
    if remaining > 0 then some (max 0 (remaining - 3)) else none

/-- A challenge detection inside one request's stream coroutine: the coroutine
received the process-wide values as parameters (call-by-value), so
`handle_cloudflare_verification`'s `nonlocal` writes change only the returned
local copy; the process-wide state is returned unchanged because no statement
in the source assigns the `global_state` module attributes.  Result:
(process-wide state after, stream-local state after). -/
def streamDetectVerification (processState : VerifState) (now : Int) :
    VerifState × VerifState :=
  let localCopy : VerifState := ⟨processState.refreshing, processState.cooldownUntil⟩
  let stepped := handleCloudflareVerification localCopy now
  (processState, stepped.1)

/-! ## C3 — request reassignment after a tab disconnect

Source: `src/core/load_balancer.py` lines 78-220 (`reassign_pending_requests`),
`src/services/message_converter.py` lines 153-158 (the signature of
`convert_openai_to_lmarena_payload`), and `src/core/tab_manager.py` lines
30-41 (which passes exactly that converter into the reassigner).

The per-request body (lines 143-218) picks the least-loaded remaining tab,
then calls the converter with **three positional arguments**
`(openai_request, session_id, message_id)` *and* the keywords
`mode_override=`, `battle_target_override=` (lines 182-188).  Python binds the
third positional to the parameter `mode_override`, so the keyword raises
`TypeError: got multiple values for argument 'mode_override'` before the
converter body runs; the surrounding `except Exception` (line 209) then pushes
`\x7b"error": ...\x7d` and `"[DONE]"` into the request's channel. -/

/-- A formal parameter of a Python function: name and whether it has a
default. -/
structure PyParam where
  name : String
  hasDefault : Bool
deriving DecidableEq, Repr

/-- CPython argument binding for a call with `nPos` positional arguments and
the given keyword names: reports the `TypeError` message for the first binding
failure, in the order CPython checks (too many positionals, duplicate value
for a positionally-bound parameter, unexpected keyword, missing required
argument). -/
def bindCallArgs (params : List PyParam) (nPos : Nat) (kwargs : List String) :
    Except String Unit :=
  if params.length < nPos then .error "too many positional arguments"
  else
    let posNames := (params.take nPos).map PyParam.name
    match kwargs.find? (fun k => posNames.contains k) with
    | some k => .error ("got multiple values for argument " ++ k)
    | none =>
      match kwargs.find? (fun k => ¬ (params.map PyParam.name).contains k) with
      | some k => .error ("unexpected keyword argument " ++ k)
      | none =>
        match (params.drop nPos).find?
            (fun p => ¬ p.hasDefault ∧ ¬ kwargs.contains p.name) with
        | some p => .error ("missing required argument " ++ p.name)
        | none => .ok ()

/-- `message_converter.py` 153-158: the parameter list of
`convert_openai_to_lmarena_payload(openai_data, session_id,
mode_override=None, battle_target_override=None)`. -/
def convertOpenaiToLmarenaParams : List PyParam :=
  [⟨"openai_data", false⟩, ⟨"session_id", false⟩,
   ⟨"mode_override", true⟩, ⟨"battle_target_override", true⟩]

/-- `load_balancer.py` 182-188: the converter call made while reassigning a
request — three positionals (`openai_request`, `session_id`, `message_id`)
plus the two keywords. -/
def reassignConvertCallBinding : Except String Unit :=
  bindCallArgs convertOpenaiToLmarenaParams 3
    ["mode_override", "battle_target_override"]

/-- `load_balancer.py` 146-153: pick the least-loaded active tab — iterate the
active tab list keeping the first tab whose load is strictly below the best so
far. -/
def minLoadTab (tabs : List (String × Nat)) : Option String :=
  (tabs.foldl
    (fun best t =>
      match best with
      | none => some t
      | some b => if t.2 < b.2 then some t else some b)
    none).map Prod.fst

/-- Outcome of `reassign_pending_requests` for one pending request of the
disconnected tab. -/
inductive ReassignOutcome where
  /-- transfer_count ≥ max_transfers: `\x7b"error": ...\x7d` + `"[DONE]"`
  pushed into the channel (lines 121-129). -/
  | maxTransfersError
  /-- no target tab found: counted as failed, nothing pushed (lines 155-158). -/
  | noTargetTab
  /-- envelope re-sent over the chosen tab with `is_transfer=true` and the
  incremented count (lines 160-207). -/
  | transferred (targetTab : String) (newTransferCount : Nat)
  /-- an exception inside the body: `\x7b"error": "Request reassignment
  failed: ..."\x7d` + `"[DONE]"` pushed (lines 209-218). -/
  | failedError (msg : String)
deriving DecidableEq, Repr

/-- `load_balancer.py` 115-218: the fate of one pending request owned by the
disconnected tab, given its current transfer count, the configured
`max_request_transfers`, and the remaining tabs with their loads. -/
def reassignRequestOutcome (transferCount maxTransfers : Nat)
    (activeTabs : List (String × Nat)) : ReassignOutcome :=
  if transferCount ≥ maxTransfers then .maxTransfersError
  else
    match minLoadTab activeTabs with
    | none => .noTargetTab
    | some best =>
      match reassignConvertCallBinding with
      | .error e => .failedError ("Request reassignment failed: TypeError: " ++ e)
      | .ok _ => .transferred best (transferCount + 1)

/-! ## C4 — the tab-registry mutex across WebSocket sends

Source: `src/routes/websocket_routes.py` lines 255-301 (the disconnect
cleanup in `websocket_endpoint`'s `finally` block) and
`src/core/load_balancer.py` lines 103-220 (`reassign_pending_requests`).
Both use the same process-wide `asyncio.Lock`
(`global_state.browser_connections_lock`, wired through
`core/tab_manager.py` lines 30-41).  `asyncio.Lock` is not reentrant: a task
that awaits `acquire` on a lock it already holds never resumes.

The embedding records the lock/send events each code path performs in order
and simulates them with a non-reentrant lock. -/

/-- The two locks the disconnect path touches. -/
inductive LockId where
  | countsLock
  | connLock
deriving DecidableEq, Repr

/-- An event: acquiring or releasing a lock, or sending on a tab WebSocket. -/
inductive LockEvent where
  | acquire : LockId → LockEvent
  | release : LockId → LockEvent
  | wsSend : LockEvent
deriving DecidableEq, Repr

/-- `load_balancer.py` 103-220: `reassign_pending_requests` acquires
`browser_connections_lock` (line 103) and, while holding it, sends the
re-translated envelope over the chosen tab's WebSocket once per request
actually transferred (line 201), releasing the lock on exit. -/
def reassignEventTrace (numTransfers : Nat) : List LockEvent :=
  [.acquire .connLock] ++ List.replicate numTransfers .wsSend ++
    [.release .connLock]

/-- `websocket_routes.py` 255-301: the disconnect cleanup — under
`tab_request_counts_lock` drop the tab's counter (260-266); then acquire
`browser_connections_lock` (268), remove the tab, and, still inside that
`async with`, await `reassign_pending_requests` when other tabs remain
(294-297), which contributes its own event trace; finally release. -/
def disconnectEventTrace (othersRemain : Bool) (numTransfers : Nat) :
    List LockEvent :=
  [.acquire .countsLock, .release .countsLock, .acquire .connLock] ++
    (if othersRemain then reassignEventTrace numTransfers else []) ++
    [.release .connLock]

/-- Simulate a single task's event list against non-reentrant locks: returns
the lock of the first `acquire` issued while that same lock is already held
(the point where the task deadlocks awaiting itself), or `none` if the trace
runs to completion. -/
def firstSelfDeadlock (events : List LockEvent) : Option LockId :=
  go [] events
where
  go (held : List LockId) : List LockEvent → Option LockId
    | [] => none
    | .acquire l :: rest =>
      if l ∈ held then some l else go (l :: held) rest
    | .release l :: rest => go (held.erase l) rest
    | .wsSend :: rest => go held rest

/-- Count the WebSocket sends a trace performs while holding the given lock
(simulated without the reentrancy block, i.e. what the code does whenever it
gets to run). -/
def sendsWhileHolding (l : LockId) (events : List LockEvent) : Nat :=
  go [] events
where
  go (held : List LockId) : List LockEvent → Nat
    | [] => 0
    | .acquire k :: rest => go (k :: held) rest
    | .release k :: rest => go (held.erase k) rest
    | .wsSend :: rest => (if l ∈ held then 1 else 0) + go held rest

/-! ## C10 — channel cleanup when a tab disconnects with auto-retry disabled

Source: `src/routes/websocket_routes.py` lines 255-326.  After the registry
cleanup, lines 318-324 run only once the `finally` block reaches them: with
`enable_auto_retry` false every queue in `response_channels` receives
`\x7b"error": "Browser disconnected during operation"\x7d` and the dict is
cleared.  But when other tabs remain, line 297 awaits
`reassign_pending_requests` *while the task already holds*
`browser_connections_lock` (acquired at line 268), and the reassigner
re-acquires the same non-reentrant lock (load_balancer.py line 103), so the
task blocks forever inside the `async with` and lines 303-326 are never
reached. -/

/-- The error frame of line 322. -/
def browserDisconnectedError : PyVal :=
  .dict [("error", .str "Browser disconnected during operation")]

/-- State the disconnect cleanup runs against: the tabs still connected after
the disconnected one was removed, the open response channels, and the
`enable_auto_retry` config flag. -/
structure DisconnectState where
  remainingTabs : List String
  channels : List (String × List PyVal)
  autoRetry : Bool

/-- `websocket_routes.py` 255-326 as a whole: `none` when the task blocks in
the self-deadlock of line 297 / load_balancer line 103 (other tabs remain), so
no frame below line 301 is ever delivered; otherwise `some (delivered,
remaining)` where `delivered` are the error frames put into channels by lines
318-324 and `remaining` the channel map afterwards. -/
def disconnectCleanup (st : DisconnectState) :
    Option (List (String × PyVal) × List (String × List PyVal)) :=
  if st.remainingTabs ≠ [] then
    none
  else if ¬ st.autoRetry then
    some (st.channels.map (fun p => (p.1, browserDisconnectedError)), [])
  else
    some ([], st.channels)

/-! ## C9 — processed-image cache

Source: `src/services/image_service.py` lines 36-44 (`calculate_image_hash`)
and 339-593 (`process_image_data`).

External primitives (`hashlib.sha256`, `decode_base64_image` /
`optimize_image` / `image_to_base64` from `modules/image_processor.py`, which
wrap PIL, and `upload_to_file_bed` from `modules/file_uploader.py`, which does
HTTP) are modelled as parameters in `ImgPrims`; every use of one of the three
effectful ones (decode, optimize, upload) is additionally recorded in an
effect trace so that "performs no decode, no optimization, and no upload
attempt" is a statement about the trace.  The booleans `file_bed_enabled` and
the merged `optimization_enabled` (lines 390-401, resolved from the global
config and the per-model `image_compression` block by `merge_image_config`)
are taken as already-resolved inputs; they are read before the cache check but
have no effect on it. -/

/-- External primitives used by the image pipeline. -/
structure ImgPrims where
  sha256 : String → String
  decode : String → Except String (String × String)
  optimize : String → String → Except String (String × String)
  uploadToFileBed : String → String → Except String String
  imageToBase64 : String → String → String
  mimeFromFormat : String → String
  /-- endpoint-order produced by the selection strategy (`random` /
  `round_robin` / `failover`, lines 488-506) -/
  arrangeEndpoints : List String → List String

/-- The effectful external calls `process_image_data` can make. -/
inductive ImgEffect where
  | decodeImage
  | optimizeImage
  | uploadAttempt (endpoint : String)
deriving DecidableEq, Repr

/-- `image_service.py` 39-42: the part of the payload after the first comma
(the base64 body of a data URI), or the whole payload when it has no comma. -/
def dataAfterComma (s : String) : String :=
  let cs := s.toList
  if cs.contains ',' then
    String.mk ((cs.dropWhile (fun c => c ≠ ',')).drop 1)
  else s

/-- `image_service.py` 36-44 (`calculate_image_hash`): sha256 of the base64
body (the hash primitive itself is external). -/
def calculateImageHash (sha256 : String → String) (base64Data : String) :
    String :=
  sha256 (dataAfterComma base64Data)

/-- The `processed_image_cache` block of the configuration, with the `.get`
defaults of lines 393 and 416 and 548 applied at use sites. -/
structure ImgCacheCfg where
  enabled : Option Bool
  ttlSeconds : Option Int
  maxSize : Option Nat
deriving DecidableEq, Repr

/-- Result of `process_image_data`: the returned pair plus the updated cache,
the updated disabled-endpoint map, and the trace of effectful calls. -/
structure ImgResult where
  output : String
  errMsg : Option String
  cache : List (String × (String × Int))
  disabled : List (String × Int)
  effects : List ImgEffect

/-- `image_service.py` 513-540: try the arranged endpoints in order, skipping
ones in the disabled map, disabling each endpoint that fails and returning the
first successful URL. -/
def uploadLoop (prims : ImgPrims) (now : Int) (data : String) :
    List String → List (String × Int) → List ImgEffect →
      Option String × List (String × Int) × List ImgEffect
  | [], disabled, effs => (none, disabled, effs)
  | name :: rest, disabled, effs =>
    if (alookup disabled name).isSome then
      uploadLoop prims now data rest disabled effs
    else
      match prims.uploadToFileBed name data with
      | .ok url => (some url, disabled, effs ++ [.uploadAttempt name])
      | .error _ =>
        uploadLoop prims now data rest (aset disabled name now)
          (effs ++ [.uploadAttempt name])

/-- Cache insertion with the size-cap eviction of lines 544-552 / 576-585:
store, then drop the oldest (first) entry when the cap is exceeded. -/
def cacheStore (cache : List (String × (String × Int))) (maxSize : Nat)
    (h v : String) (now : Int) : List (String × (String × Int)) :=
  let cache' := aset cache h (v, now)
  if cache'.length > maxSize then cache'.drop 1 else cache'

/-- `image_service.py` 339-593 (`process_image_data`): content-hash cache
check, then decode, optional optimization, and either a file-bed upload with
failover and base64 fallback or a plain base64 conversion. -/
def processImageData (prims : ImgPrims) (fileBedEnabled optimizationEnabled : Bool)
    (cacheCfg : ImgCacheCfg) (endpoints : List (String × Bool))
    (recoveryTime : Int) (cache : List (String × (String × Int)))
    (disabled : List (String × Int)) (now : Int) (base64Data : String) :
    ImgResult :=
  let cacheEnabled := cacheCfg.enabled.getD true
  let ttl := cacheCfg.ttlSeconds.getD 3600
  let maxSize := cacheCfg.maxSize.getD 200
  let imageHash := calculateImageHash prims.sha256 base64Data
  -- lines 407-422: cache hit returns before any decode / optimize / upload
  let hit : Option String :=
    if cacheEnabled then
      match alookup cache imageHash with
      | some (v, t) => if now - t < ttl then some v else none
      | none => none
    else none
  match hit with
  | some v => ⟨v, none, cache, disabled, []⟩
  | none =>
    -- line 422: an expired entry is deleted before reprocessing
    let cache :=
      if cacheEnabled then
        match alookup cache imageHash with
        | some _ => aerase cache imageHash
        | none => cache
      else cache
    -- lines 424-429: decode
    match prims.decode base64Data with
    | .error e => ⟨base64Data, some e, cache, disabled, [.decodeImage]⟩
    | .ok (bytes, fmt) =>
      -- lines 436-452: optional optimization, falling back to the original
      let opt :
          (String × String) × List ImgEffect :=
        if optimizationEnabled then
          match prims.optimize bytes fmt with
          | .ok (b, f) => ((b, f), [.decodeImage, .optimizeImage])
          | .error _ => ((bytes, fmt), [.decodeImage, .optimizeImage])
        else ((bytes, fmt), [.decodeImage])
      let finalBytes := opt.1.1
      let finalFmt := opt.1.2
      let effs := opt.2
      if fileBedEnabled then
        -- lines 455-479: auto-recover endpoints past the recovery interval
        let disabled :=
          disabled.filter (fun p => ¬ (now - p.2 > recoveryTime))
        let active :=
          (endpoints.filter
            (fun p => p.2 ∧ (alookup disabled p.1).isNone)).map Prod.fst
        if active.isEmpty then
          -- lines 481-486: no endpoint — base64 fallback, not cached
          ⟨prims.imageToBase64 finalBytes (prims.mimeFromFormat finalFmt),
            none, cache, disabled, effs⟩
        else
          let ordered := prims.arrangeEndpoints active
          let uploadData :=
            prims.imageToBase64 finalBytes (prims.mimeFromFormat finalFmt)
          match uploadLoop prims now uploadData ordered disabled effs with
          | (some url, disabled, effs) =>
            let cache :=
              if cacheEnabled then cacheStore cache maxSize imageHash url now
              else cache
            ⟨url, none, cache, disabled, effs⟩
          | (none, disabled, effs) =>
            -- lines 554-566: every endpoint failed — cached base64 fallback
            let fallback :=
              prims.imageToBase64 finalBytes (prims.mimeFromFormat finalFmt)
            let cache :=
              if cacheEnabled then
                cacheStore cache maxSize imageHash fallback now
              else cache
            ⟨fallback, none, cache, disabled, effs⟩
      else
        -- lines 568-587: no file bed — base64 output, cached
        let result := prims.imageToBase64 finalBytes (prims.mimeFromFormat finalFmt)
        let cache :=
          if cacheEnabled then cacheStore cache maxSize imageHash result now
          else cache
        ⟨result, none, cache, disabled, effs⟩

/-- A concrete primitive pack used to evaluate the pipeline at concrete
inputs (the hash is the identity on the base64 body; every effectful call
fails). -/
def concretePrims : ImgPrims :=
  ⟨fun s => s, fun _ => .error "decode disabled",
   fun _ _ => .error "optimize disabled", fun _ _ => .error "upload disabled",
   fun b _ => b, fun f => f, fun l => l⟩

/-! ## C8 — thinking-separator split in direct passthrough streaming

Source: `src/routes/api_routes.py` lines 1126-1222 (`process_sse_chunk`
inside `combined_stream_generator`).

The function keeps three pieces of state across chunks:
`accumulated_for_split` (all content seen so far), `output_position` (how much
of it has already been emitted as `reasoning_content`), and `split_done`.
Once `split_done` is set, chunks pass through unchanged (their deltas stay
`content`).  Before that, each non-empty content fragment is appended to the
accumulator; if the separator now occurs, the not-yet-emitted part of the text
before its first occurrence goes out as a `reasoning_content` delta and the
text after it as a `content` delta; otherwise only the part that can no
longer overlap a future separator occurrence
(`up to len(accumulated) - len(sep)`) is emitted as `reasoning_content`.

The embedding works on the sequence of content fragments carried by the
`data:` lines (an empty fragment neither accumulates nor emits, matching
`if content:`); each emitted delta is an event in one of the two channels. -/

/-- A delta emitted to the client, tagged with its channel. -/
inductive SepEvent where
  | reasoning : List Char → SepEvent
  | content : List Char → SepEvent
deriving DecidableEq, Repr

/-- The cross-chunk state of `process_sse_chunk` (lines 1127-1130). -/
structure SepState where
  acc : List Char
  posOut : Nat
  splitDone : Bool
deriving DecidableEq, Repr

/-- `api_routes.py` 1133-1222: process one content fragment. -/
def sepStep (sep : List Char) (s : SepState) (c : List Char) :
    SepState × List SepEvent :=
  if s.splitDone then (s, [.content c])
  else if c.isEmpty then (s, [])
  else
    let acc' := s.acc ++ c
    match firstOcc sep acc' with
    | some idx =>
      let fullReasoning := acc'.take idx
      let contentPart := acc'.drop (idx + sep.length)
      let remaining := fullReasoning.drop s.posOut
      (⟨acc', s.posOut, true⟩,
        (if remaining.isEmpty then [] else [.reasoning remaining]) ++
          (if contentPart.isEmpty then [] else [.content contentPart]))
    | none =>
      let safePos := max s.posOut (acc'.length - sep.length)
      let safeContent := (acc'.take safePos).drop s.posOut
      if safeContent.isEmpty then (⟨acc', s.posOut, false⟩, [])
      else (⟨acc', safePos, false⟩, [.reasoning safeContent])

/-- Run `process_sse_chunk` over a fragment sequence from a given state,
collecting the events in order. -/
def sepRunFrom (sep : List Char) (s : SepState) :
    List (List Char) → SepState × List SepEvent
  | [] => (s, [])
  | c :: rest =>
    let step := sepStep sep s c
    let tail := sepRunFrom sep step.1 rest
    (tail.1, step.2 ++ tail.2)

/-- Run from the initial state of lines 1127-1130. -/
def sepRun (sep : List Char) (frags : List (List Char)) :
    SepState × List SepEvent :=
  sepRunFrom sep ⟨[], 0, false⟩ frags

/-- Concatenation of all `reasoning_content` deltas. -/
def joinReasoning (es : List SepEvent) : List Char :=
  (es.filterMap (fun e => match e with | .reasoning r => some r | _ => none)).flatten

/-- Concatenation of all `content` deltas. -/
def joinContent (es : List SepEvent) : List Char :=
  (es.filterMap (fun e => match e with | .content r => some r | _ => none)).flatten

/-! # Theorems -/

/-! ## C1 -/

/-- C1 counterexample: with `CONFIG = \x7b"api_key": "k"\x7d` and a modified
`config.jsonc` whose new contents are the invalid JSON `\x7b`, `load_config`
leaves the store empty — the previously exposed value of `api_key` is gone,
so a failed reload does not preserve the prior snapshot. -/
theorem C1_counterexample :
    (loadConfig false [("api_key", .jstr "k")] 1 (some 2) "\x7b").1 = [] ∧
    alookup [("api_key", Json.jstr "k")] "api_key" = some (.jstr "k") ∧
    alookup (loadConfig false [("api_key", .jstr "k")] 1 (some 2) "\x7b").1
      "api_key" = none :=
  ⟨rfl, rfl, rfl⟩

/-- C1 (amended): when re-parsing fails during a hot reload (the file's mtime
changed and the new contents do not parse), `load_config` clears `CONFIG` to
the empty map and `load_model_endpoint_map` clears `MODEL_ENDPOINT_MAP` to the
empty map — the previous snapshot is discarded, not retained. -/
theorem C1_failed_reload_clears_store
    (cfg em : List (String × Json)) (stored m : Int) (content : String)
    (hmod : m ≠ stored) (hjsonc : parseJsonc content = none)
    (hnb : isBlankLine content.toList = false)
    (hjson : jsonLoads content = none) :
    (loadConfig false cfg stored (some m) content).1 = [] ∧
    (loadModelEndpointMap false em stored (some m) content).1 = [] := by
  constructor
  · unfold loadConfig
    simp [hmod, hjsonc]
  · unfold loadModelEndpointMap
    simp [hmod, hnb, hjson]
    split <;> rfl

/-- C1 witness: the amended theorem evaluated at the concrete failing reload
of the counterexample. -/
theorem C1_failed_reload_clears_store_witness :
    (loadConfig false [("api_key", .jstr "k")] 1 (some 2) "\x7b").1 = [] ∧
    (loadModelEndpointMap false [("m", .jstr "s")] 1 (some 2) "\x7b").1 = [] :=
  C1_failed_reload_clears_store [("api_key", .jstr "k")] [("m", .jstr "s")]
    1 2 "\x7b" (by decide) rfl rfl rfl

/-! ## C2 -/

/-- C2: a human-verification challenge detected at time 100 sets the
stream-coroutine's local cool-down to 125, but the process-wide state is
unchanged (the `nonlocal` writes in `handle_cloudflare_verification` rebind
function locals, and no statement in the source assigns the module globals);
a new request at time 110 — squarely inside the claimed 25-second window —
passes the `chat_completions` admission gate instead of being rejected with a
503.  Had the value propagated, the gate would have rejected with 12
remaining seconds. -/
theorem C2_cooldown_not_process_wide :
    (streamDetectVerification ⟨false, none⟩ 100).2.cooldownUntil = some 125 ∧
    (streamDetectVerification ⟨false, none⟩ 100).1 = ⟨false, none⟩ ∧
    verificationGate
      (streamDetectVerification ⟨false, none⟩ 100).1.cooldownUntil 110 = none ∧
    verificationGate (some 125) 110 = some 12 := by
  refine ⟨rfl, rfl, rfl, ?_⟩
  decide

/-! ## C3 -/

/-- C3: the converter call inside `reassign_pending_requests` passes a third
positional argument *and* the keyword `mode_override=`, so CPython binding
fails with a `TypeError` before the converter runs; consequently no pending
request is ever transferred — every reassignment attempt with a target tab
ends in the `except` branch that pushes an error terminal into the channel,
as evaluated at a request with `transfer_count = 0 < 3` and one remaining
tab. -/
theorem C3_reassignment_never_transfers :
    reassignConvertCallBinding =
      .error "got multiple values for argument mode_override" ∧
    (∀ (tc mt : Nat) (tabs : List (String × Nat)),
      reassignRequestOutcome tc mt tabs = .maxTransfersError ∨
      reassignRequestOutcome tc mt tabs = .noTargetTab ∨
      reassignRequestOutcome tc mt tabs =
        .failedError
          "Request reassignment failed: TypeError: got multiple values for argument mode_override") ∧
    reassignRequestOutcome 0 3 [("T2", 0)] =
      .failedError
        "Request reassignment failed: TypeError: got multiple values for argument mode_override" := by
  refine ⟨rfl, ?_, rfl⟩
  intro tc mt tabs
  unfold reassignRequestOutcome
  split
  · exact Or.inl rfl
  · cases minLoadTab tabs with
    | none => exact Or.inr (Or.inl rfl)
    | some best =>
      rw [show reassignConvertCallBinding =
        Except.error "got multiple values for argument mode_override" from rfl]
      exact Or.inr (Or.inr rfl)

/-! ## C4 -/

/-- C4: simulating the disconnect path with non-reentrant locks, the task
self-deadlocks: inside the `async with browser_connections_lock` of the
`finally` block it awaits `reassign_pending_requests`, whose own
`async with` acquires the same lock already held by the task.  Moreover,
whenever `reassign_pending_requests` does run, its WebSocket send happens
while `browser_connections_lock` is held (one send per transferred request),
and the reassigner's own trace is lock-balanced (the deadlock comes from the
caller already holding the lock). -/
theorem C4_registry_lock_self_deadlock :
    firstSelfDeadlock (disconnectEventTrace true 1) = some .connLock ∧
    sendsWhileHolding .connLock (reassignEventTrace 1) = 1 ∧
    firstSelfDeadlock (reassignEventTrace 1) = none := by
  decide

/-! ## C5 -/

/-- C5 counterexample: for a model mapped to three session bindings
`[B1, B2, B3]`, six sequential requests from a fresh cursor use the bindings
at indices `[1, 2, 0, 1, 2, 0]`, i.e. `B2, B3, B1, B2, B3, B1` — not
`B1, B2, B3, B1, B2, B3` as claimed: `chat_completions` advances the cursor
before `handle_lmarena_request` reads it. -/
theorem C5_counterexample :
    tabRequestSequence 3 6 = [1, 2, 0, 1, 2, 0] ∧
    tabRequestSequence 3 6 ≠ [0, 1, 2, 0, 1, 2] ∧
    (tabRequestSequence 3 6).map
      (fun i => ["B1", "B2", "B3"].getD i "") =
      ["B2", "B3", "B1", "B2", "B3", "B1"] := by
  decide

/-- Helper for C5: selections from an already-initialised cursor value. -/
theorem tabRequestSelections_eq (n : Nat) :
    ∀ (k c : Nat), tabRequestSelections n (some c) k =
      (List.range k).map (fun i => (c + i + 1) % n) := by
  intro k
  induction k with
  | zero => intro c; rfl
  | succ k ih =>
    intro c
    rw [List.range_succ_eq_map]
    simp only [tabRequestSelections, tabRequestSelect, chatCompletionsRoundRobin,
      handleLmarenaSelect, Option.getD_some, List.map_cons, List.map_map]
    refine congrArg₂ List.cons rfl ?_
    rw [ih ((c + 1) % n)]
    refine congrArg₂ List.map ?_ rfl
    funext i
    simp only [Function.comp, Nat.succ_eq_add_one]
    calc ((c + 1) % n + i + 1) % n
        = ((c + 1) % n + (i + 1)) % n := by ring_nf
      _ = ((c + 1) + (i + 1)) % n := Nat.mod_add_mod _ _ _
      _ = (c + (i + 1) + 1) % n := by ring_nf

/-- Helper for C5: the stored cursor after `k` further requests. -/
theorem tabCursorAfter_eq (n : Nat) :
    ∀ (k c : Nat), tabCursorAfter n (some (c % n)) k = some ((c + k) % n) := by
  intro k
  induction k with
  | zero => intro c; rfl
  | succ k ih =>
    intro c
    simp only [tabCursorAfter, tabRequestSelect, chatCompletionsRoundRobin,
      handleLmarenaSelect, Option.getD_some]
    rw [Nat.mod_add_mod]
    rw [ih (c + 1)]
    refine congrArg some (congrArg (· % n) ?_)
    omega

/-- C5 (amended): the round-robin cursor is advanced exactly once per admitted
request, at admission time inside `chat_completions` (the advance deferred to
completion in `handle_lmarena_request` never happens), and the cursor after
`k` requests is `k % n`; but because the advance precedes the handler's read,
the `i`-th request (1-based) uses the binding at index `i % n` — strict list
rotation starting from the **second** binding. -/
theorem C5_rotation_from_second_binding (n : Nat) (hn : 0 < n) (k : Nat) :
    tabRequestSequence n k = (List.range k).map (fun i => (i + 1) % n) ∧
    (0 < k → tabCursorAfter n none k = some (k % n)) := by
  constructor
  · unfold tabRequestSequence
    cases k with
    | zero => rfl
    | succ k =>
      rw [List.range_succ_eq_map]
      simp only [tabRequestSelections, tabRequestSelect, chatCompletionsRoundRobin,
        handleLmarenaSelect, Option.getD_none, Option.getD_some, List.map_cons,
        List.map_map]
      refine congrArg₂ List.cons rfl ?_
      rw [tabRequestSelections_eq n k ((0 + 1) % n)]
      refine congrArg₂ List.map ?_ rfl
      funext i
      simp only [Function.comp, Nat.succ_eq_add_one, Nat.zero_add]
      calc (1 % n + i + 1) % n
          = (1 % n + (i + 1)) % n := by ring_nf
        _ = (1 + (i + 1)) % n := Nat.mod_add_mod _ _ _
        _ = (i + 1 + 1) % n := by ring_nf
  · intro hk
    cases k with
    | zero => omega
    | succ k =>
      simp only [tabCursorAfter, tabRequestSelect, chatCompletionsRoundRobin,
        handleLmarenaSelect, Option.getD_none]
      have h1 : (0 + 1) % n = 1 % n := by norm_num
      rw [h1, tabCursorAfter_eq n k 1]
      refine congrArg some (congrArg (· % n) ?_)
      omega

/-- C5 witness: the amended theorem at `n = 3`, `k = 6`, hypotheses
discharged. -/
theorem C5_rotation_from_second_binding_witness :
    tabRequestSequence 3 6 = (List.range 6).map (fun i => (i + 1) % 3) ∧
    tabCursorAfter 3 none 6 = some (6 % 3) :=
  ⟨(C5_rotation_from_second_binding 3 (by decide) 6).1,
   (C5_rotation_from_second_binding 3 (by decide) 6).2 (by decide)⟩

/-! ## C6 -/

/-- C6 counterexample: with `max_temperature = 0.7` a request temperature of
1.5 is indeed clamped to 0.7 in the request body, but the payload the
converter returns — hence the envelope sent to the tab — contains no
`temperature` key at all (looking it up yields `none`, not `0.7`). -/
theorem C6_counterexample :
    applyTemperatureLimit (some (7/10)) (some (3/2)) = some (7/10) ∧
    PyVal.dlookup
      (convertReturnPayload (.list []) .pynone (.str "sess") (.str "a"))
      "temperature" = none ∧
    PyVal.dlookup
      (messageToBrowserEnvelope "r1"
        (convertReturnPayload (.list []) .pynone (.str "sess") (.str "a"))
        (.dict []))
      "payload" =
      some (convertReturnPayload (.list []) .pynone (.str "sess") (.str "a")) := by
  refine ⟨?_, rfl, rfl⟩
  show (if (3 : ℚ)/2 > 7/10 then some ((7 : ℚ)/10) else some (3/2)) = some (7/10)
  norm_num

/-- C6 (amended): a request temperature above the binding's cap is clamped to
the cap before dispatch, but the envelope payload sent to the browser tab
carries no `temperature` field whatsoever — its keys are exactly
`message_templates`, `target_model_id`, `session_id`, `battle_target`. -/
theorem C6_clamp_and_envelope_without_temperature :
    (∀ cap t : ℚ, cap < t →
      applyTemperatureLimit (some cap) (some t) = some cap) ∧
    (∀ mt tm sid bt : PyVal,
      PyVal.dlookup (convertReturnPayload mt tm sid bt) "temperature" = none) := by
  constructor
  · intro cap t h
    show (if t > cap then some cap else some t) = some cap
    rw [if_pos h]
  · intro mt tm sid bt
    rfl

/-- C6 witness: the amended theorem at the scenario of the claim
(cap 0.7, request temperature 1.5). -/
theorem C6_clamp_and_envelope_without_temperature_witness :
    applyTemperatureLimit (some ((7 : ℚ)/10)) (some ((3 : ℚ)/2)) =
      some ((7 : ℚ)/10) ∧
    PyVal.dlookup
      (convertReturnPayload (.list []) .pynone (.str "sess") (.str "a"))
      "temperature" = none :=
  ⟨C6_clamp_and_envelope_without_temperature.1 (7/10) (3/2) (by norm_num),
   C6_clamp_and_envelope_without_temperature.2 (.list []) .pynone (.str "sess")
     (.str "a")⟩

/-! ## C7 -/

/-- C7 counterexample: a frame whose request id has an open response channel
but no recorded request metadata is enqueued unconditionally (the
backward-compatibility branch), although neither a `transfer_allowed` flag is
true nor does the sender match any recorded owner — contradicting "in every
other case the frame is discarded with a warning and the channel's contents
are unchanged". -/
theorem C7_counterexample :
    routeTabFrame [("r1", [])] [] "T9" "r1" (.str "frame") =
      ([("r1", [.str "frame"])], .enqueued) := rfl

/-- C7 (amended): for a frame whose request id has an open channel *and*
recorded metadata, the frame is enqueued exactly when `transfer_allowed`
(default true) holds or the sender equals the recorded owner tab; otherwise
it is discarded with a warning and the channel map is unchanged.  Frames for
channels with no recorded metadata are enqueued unconditionally. -/
theorem C7_frame_routing_with_metadata
    (channels : List (String × List PyVal))
    (metadata : List (String × RequestMeta)) (sender rid : String)
    (data : PyVal) (q : List PyVal) (md : RequestMeta)
    (hq : alookup channels rid = some q)
    (hm : alookup metadata rid = some md) :
    (md.transferAllowed.getD true = true ∨ md.tabId = some sender →
      routeTabFrame channels metadata sender rid data =
        (aset channels rid (q ++ [data]), .enqueued)) ∧
    (md.transferAllowed.getD true = false → md.tabId ≠ some sender →
      routeTabFrame channels metadata sender rid data =
        (channels, .rejectedWarning)) := by
  constructor
  · intro h
    rcases h with h | h
    · simp [routeTabFrame, hq, hm, h]
    · by_cases ha : md.transferAllowed.getD true = true
      · simp [routeTabFrame, hq, hm, ha]
      · simp [routeTabFrame, hq, hm, ha, h]
  · intro ha ho
    simp [routeTabFrame, hq, hm, ha, ho]

/-- C7 witness: the amended theorem at a concrete owner-mismatch state with
`transfer_allowed = false` (rejected) and, via the left conjunct, at a
matching sender. -/
theorem C7_frame_routing_with_metadata_witness :
    routeTabFrame [("r1", [])] [("r1", ⟨some "T1", some false⟩)] "T9" "r1"
        (.str "frame") = ([("r1", [])], .rejectedWarning) ∧
    routeTabFrame [("r1", [])] [("r1", ⟨some "T1", some false⟩)] "T1" "r1"
        (.str "frame") = ([("r1", [.str "frame"])], .enqueued) :=
  ⟨(C7_frame_routing_with_metadata [("r1", [])]
      [("r1", ⟨some "T1", some false⟩)] "T9" "r1" (.str "frame") []
      ⟨some "T1", some false⟩ rfl rfl).2 rfl (by simp),
   (C7_frame_routing_with_metadata [("r1", [])]
      [("r1", ⟨some "T1", some false⟩)] "T1" "r1" (.str "frame") []
      ⟨some "T1", some false⟩ rfl rfl).1 (Or.inr rfl)⟩

/-! ## C9 -/

/-- C9: when the content hash of the input is present and unexpired in the
processed-image cache (and caching is enabled), `process_image_data` returns
the cached value unchanged with no error, leaves the cache and the
disabled-endpoint map untouched, and performs no decode, no optimization and
no upload attempt (empty effect trace). -/
theorem C9_cache_hit_returns_cached_without_effects
    (prims : ImgPrims) (fb opt : Bool) (cacheCfg : ImgCacheCfg)
    (endpoints : List (String × Bool)) (recovery : Int)
    (cache : List (String × (String × Int))) (disabled : List (String × Int))
    (now : Int) (data v : String) (t : Int)
    (hen : cacheCfg.enabled.getD true = true)
    (hh : alookup cache (calculateImageHash prims.sha256 data) = some (v, t))
    (hfresh : now - t < cacheCfg.ttlSeconds.getD 3600) :
    processImageData prims fb opt cacheCfg endpoints recovery cache disabled
        now data = ⟨v, none, cache, disabled, []⟩ := by
  unfold processImageData
  simp [hen, hh, hfresh]

/-- C9 witness: a concrete cache hit (hash present, stored 50, queried at
100, TTL default 3600) returns the cached URL with an empty effect trace. -/
theorem C9_cache_hit_returns_cached_without_effects_witness :
    processImageData concretePrims true true ⟨none, none, none⟩
        [("ep1", true)] 300 [("img", ("cached-url", 50))] [] 100 "img" =
      ⟨"cached-url", none, [("img", ("cached-url", 50))], [], []⟩ :=
  C9_cache_hit_returns_cached_without_effects concretePrims true true
    ⟨none, none, none⟩ [("ep1", true)] 300 [("img", ("cached-url", 50))] []
    100 "img" "cached-url" 50 rfl rfl (by decide)

/-! ## C10 -/

/-- C10 counterexample: a tab disconnects while another tab (`T2`) is still
connected and `enable_auto_retry` is false; the cleanup blocks in the
self-deadlock before lines 318-324, so the open channel `r1` never receives
the disconnect error and is not removed — the claimed process-wide
error-and-removal does not happen. -/
theorem C10_counterexample :
    disconnectCleanup ⟨["T2"], [("r1", [])], false⟩ = none := rfl

/-- C10 (amended): when the disconnecting tab was the last one (no tabs
remain) and `enable_auto_retry` is false, every open response channel
receives the terminal `Browser disconnected during operation` error frame and
the channel map is cleared; when other tabs remain, the handler deadlocks
re-acquiring `browser_connections_lock` inside reassignment and the cleanup
is never reached. -/
theorem C10_last_tab_disconnect_cleanup
    (chans : List (String × List PyVal)) :
    disconnectCleanup ⟨[], chans, false⟩ =
      some (chans.map (fun p => (p.1, browserDisconnectedError)), []) ∧
    ∀ (tabs : List String) (h : tabs ≠ []),
      disconnectCleanup ⟨tabs, chans, false⟩ = none := by
  constructor
  · unfold disconnectCleanup
    simp
  · intro tabs h
    unfold disconnectCleanup
    simp [h]

/-- C10 witness: the amended theorem at one open channel — delivered error
and empty channel map when no tab remains, blocked when `T2` remains. -/
theorem C10_last_tab_disconnect_cleanup_witness :
    disconnectCleanup ⟨[], [("r1", [])], false⟩ =
      some ([("r1", browserDisconnectedError)], []) ∧
    disconnectCleanup ⟨["T2"], [("r1", [])], false⟩ = none :=
  ⟨(C10_last_tab_disconnect_cleanup [("r1", [])]).1,
   (C10_last_tab_disconnect_cleanup [("r1", [])]).2 ["T2"] (by decide)⟩

/-! ## C8 -/

/-- `headMatches` decides a match at the head. -/
theorem headMatches_iff (sep l : List Char) :
    headMatches sep l = true ↔ l.take sep.length = sep := by
  simp [headMatches]

/-- Occurrence at 0 is a head match. -/
theorem occursAt_zero_iff (sep l : List Char) :
    occursAt sep l 0 ↔ l.take sep.length = sep := by
  simp [occursAt]

/-- Occurrence shifting across a cons. -/
theorem occursAt_succ_cons (sep : List Char) (c : Char) (t : List Char)
    (j : Nat) : occursAt sep (c :: t) (j + 1) ↔ occursAt sep t j := by
  simp [occursAt, List.drop_succ_cons]

/-- An occurrence of a non-empty pattern lies within the list. -/
theorem occursAt_bound (sep l : List Char) (j : Nat) (hsep : sep ≠ [])
    (h : occursAt sep l j) : j + sep.length ≤ l.length := by
  have hlen := congrArg List.length h
  simp only [List.length_take, List.length_drop] at hlen
  have hpos : 0 < sep.length := List.length_pos.mpr hsep
  omega

/-- An occurrence survives appending on the right. -/
theorem occursAt_append_left (sep l u : List Char) (j : Nat) (hsep : sep ≠ [])
    (h : occursAt sep l j) : occursAt sep (l ++ u) j := by
  have hb := occursAt_bound sep l j hsep h
  have hpos : 0 < sep.length := List.length_pos.mpr hsep
  unfold occursAt at h ⊢
  rw [List.drop_append_of_le_length (by omega),
    List.take_append_of_le_length (by simp [List.length_drop]; omega), h]

/-- An occurrence of the concatenation that fits inside the left part is an
occurrence of the left part. -/
theorem occursAt_of_append (sep l u : List Char) (j : Nat)
    (hb : j + sep.length ≤ l.length) (h : occursAt sep (l ++ u) j) :
    occursAt sep l j := by
  unfold occursAt at h ⊢
  rw [List.drop_append_of_le_length (by omega),
    List.take_append_of_le_length (by simp [List.length_drop]; omega)] at h
  exact h

/-- `firstOcc` returns an occurrence and its minimality. -/
theorem firstOcc_spec (sep : List Char) :
    ∀ (l : List Char) (i : Nat), firstOcc sep l = some i →
      occursAt sep l i ∧ ∀ j < i, ¬ occursAt sep l j := by
  intro l
  induction l with
  | nil =>
    intro i h
    unfold firstOcc at h
    by_cases hm : headMatches sep [] = true
    · rw [if_pos hm] at h
      obtain rfl : (0 : Nat) = i := Option.some_inj.mp h
      exact ⟨(occursAt_zero_iff sep []).mpr ((headMatches_iff sep []).mp hm),
        fun j hj => absurd hj (Nat.not_lt_zero j)⟩
    · rw [if_neg hm] at h
      exact absurd h (Option.noConfusion)
  | cons c t ih =>
    intro i h
    unfold firstOcc at h
    by_cases hm : headMatches sep (c :: t) = true
    · rw [if_pos hm] at h
      obtain rfl : (0 : Nat) = i := Option.some_inj.mp h
      exact ⟨(occursAt_zero_iff sep (c :: t)).mpr
        ((headMatches_iff sep (c :: t)).mp hm),
        fun j hj => absurd hj (Nat.not_lt_zero j)⟩
    · rw [if_neg hm] at h
      obtain ⟨i', hi', rfl⟩ := Option.map_eq_some'.mp h
      obtain ⟨hocc, hmin⟩ := ih i' hi'
      refine ⟨(occursAt_succ_cons sep c t i').mpr hocc, ?_⟩
      intro j hj
      cases j with
      | zero =>
        intro hc
        exact hm ((headMatches_iff sep (c :: t)).mpr
          ((occursAt_zero_iff sep (c :: t)).mp hc))
      | succ j' =>
        intro hc
        exact hmin j' (by omega) ((occursAt_succ_cons sep c t j').mp hc)

/-- When `firstOcc` finds nothing, there is no occurrence at all. -/
theorem firstOcc_none_spec (sep : List Char) (hsep : sep ≠ []) :
    ∀ (l : List Char), firstOcc sep l = none →
      ∀ j, ¬ occursAt sep l j := by
  intro l
  induction l with
  | nil =>
    intro _ j hc
    unfold occursAt at hc
    simp only [List.drop_nil, List.take_nil] at hc
    exact hsep hc.symm
  | cons c t ih =>
    intro h j
    unfold firstOcc at h
    by_cases hm : headMatches sep (c :: t) = true
    · rw [if_pos hm] at h
      exact absurd h (Option.noConfusion)
    · rw [if_neg hm] at h
      have ht : firstOcc sep t = none := Option.map_eq_none'.mp h
      cases j with
      | zero =>
        intro hc
        exact hm ((headMatches_iff sep (c :: t)).mpr
          ((occursAt_zero_iff sep (c :: t)).mp hc))
      | succ j' =>
        intro hc
        exact ih ht j' ((occursAt_succ_cons sep c t j').mp hc)

/-- The occurrence count is zero exactly when `firstOcc` finds nothing. -/
theorem occCount_eq_zero_iff (sep : List Char) :
    ∀ l : List Char, occCount sep l = 0 ↔ firstOcc sep l = none := by
  intro l
  induction l with
  | nil =>
    unfold occCount firstOcc
    by_cases hm : headMatches sep [] = true <;> simp [hm]
  | cons c t ih =>
    unfold occCount firstOcc
    by_cases hm : headMatches sep (c :: t) = true <;> simp [hm, ih]

/-- Stitching two adjacent slices of the reasoning prefix. -/
theorem reasoning_chain (S : List Char) (p p' idx : Nat) (h1 : p ≤ p')
    (h2 : p' ≤ idx) (h3 : idx ≤ S.length) :
    (S.take p').drop p ++ (S.take idx).drop p' = (S.take idx).drop p := by
  have h4 : S.take p' = (S.take idx).take p' := by
    rw [List.take_take]
    congr 1
    omega
  rw [h4]
  conv_rhs => rw [← List.take_append_drop p' (S.take idx)]
  rw [List.drop_append_of_le_length (by simp [List.length_take]; omega)]

/-- `joinReasoning` distributes over concatenation. -/
theorem joinReasoning_append (a b : List SepEvent) :
    joinReasoning (a ++ b) = joinReasoning a ++ joinReasoning b := by
  simp [joinReasoning]

/-- `joinContent` distributes over concatenation. -/
theorem joinContent_append (a b : List SepEvent) :
    joinContent (a ++ b) = joinContent a ++ joinContent b := by
  simp [joinContent]

/-- After the split is done, every further fragment passes through as a
`content` delta: no reasoning is emitted and the content equals the
concatenation of the remaining fragments. -/
theorem sepRunFrom_splitDone (sep : List Char) (A : List Char) (p : Nat) :
    ∀ frags : List (List Char),
      joinReasoning (sepRunFrom sep ⟨A, p, true⟩ frags).2 = [] ∧
      joinContent (sepRunFrom sep ⟨A, p, true⟩ frags).2 = frags.flatten := by
  intro frags
  induction frags with
  | nil => exact ⟨rfl, rfl⟩
  | cons c rest ih =>
    have hstep : sepRunFrom sep ⟨A, p, true⟩ (c :: rest) =
        ((sepRunFrom sep ⟨A, p, true⟩ rest).1,
          [SepEvent.content c] ++ (sepRunFrom sep ⟨A, p, true⟩ rest).2) := by
      simp [sepRunFrom, sepStep]
    rw [hstep]
    constructor
    · rw [joinReasoning_append, ih.1]
      rfl
    · rw [joinContent_append, ih.2, List.flatten_cons]
      congr 1
      simp [joinContent]

/-- Unfolding of `sepRunFrom` over one fragment. -/
theorem sepRunFrom_cons (sep : List Char) (s : SepState) (c : List Char)
    (rest : List (List Char)) :
    sepRunFrom sep s (c :: rest) =
      ((sepRunFrom sep (sepStep sep s c).1 rest).1,
        (sepStep sep s c).2 ++ (sepRunFrom sep (sepStep sep s c).1 rest).2) :=
  rfl

/-- Step value when the accumulator still has no occurrence and nothing is
safe to emit. -/
theorem sepStep_none_keep (sep A c : List Char) (p : Nat)
    (hc : ¬ c.isEmpty = true) (hocc : firstOcc sep (A ++ c) = none)
    (hse : (((A ++ c).take (max p ((A ++ c).length - sep.length))).drop
      p).isEmpty = true) :
    sepStep sep ⟨A, p, false⟩ c = (⟨A ++ c, p, false⟩, []) := by
  unfold sepStep
  dsimp only
  rw [if_neg hc, hocc]
  dsimp only
  rw [if_pos hse, if_neg Bool.false_ne_true]

/-- Step value when the accumulator still has no occurrence and a safe slice
is emitted as reasoning. -/
theorem sepStep_none_emit (sep A c : List Char) (p : Nat)
    (hc : ¬ c.isEmpty = true) (hocc : firstOcc sep (A ++ c) = none)
    (hse : ¬ (((A ++ c).take (max p ((A ++ c).length - sep.length))).drop
      p).isEmpty = true) :
    sepStep sep ⟨A, p, false⟩ c =
      (⟨A ++ c, max p ((A ++ c).length - sep.length), false⟩,
        [SepEvent.reasoning
          (((A ++ c).take (max p ((A ++ c).length - sep.length))).drop p)]) := by
  unfold sepStep
  dsimp only
  rw [if_neg hc, hocc]
  dsimp only
  rw [if_neg hse, if_neg Bool.false_ne_true]

/-- Step value when the separator completes inside this fragment. -/
theorem sepStep_some (sep A c : List Char) (p i : Nat)
    (hc : ¬ c.isEmpty = true) (hocc : firstOcc sep (A ++ c) = some i) :
    sepStep sep ⟨A, p, false⟩ c =
      (⟨A ++ c, p, true⟩,
        (if (((A ++ c).take i).drop p).isEmpty then []
         else [SepEvent.reasoning (((A ++ c).take i).drop p)]) ++
        (if ((A ++ c).drop (i + sep.length)).isEmpty then []
         else [SepEvent.content ((A ++ c).drop (i + sep.length))])) := by
  unfold sepStep
  dsimp only
  rw [if_neg hc, hocc]
  rw [if_neg Bool.false_ne_true]

/-- Step value on an empty fragment. -/
theorem sepStep_empty (sep A : List Char) (p : Nat) :
    sepStep sep ⟨A, p, false⟩ [] = (⟨A, p, false⟩, []) := by
  rfl

/-- Invariant run of the splitter: starting from a state whose accumulator
contains no occurrence and whose output cursor respects the overlap margin,
the emitted reasoning is exactly the not-yet-emitted part of the text before
the first occurrence of the separator, and the emitted content is exactly the
text after it. -/
theorem sepRunFrom_correct (sep : List Char) (hsep : sep ≠ []) :
    ∀ (frags : List (List Char)) (A : List Char) (p : Nat),
      firstOcc sep A = none →
      (p = 0 ∨ p + sep.length ≤ A.length) →
      ∀ idx, firstOcc sep (A ++ frags.flatten) = some idx →
        joinReasoning (sepRunFrom sep ⟨A, p, false⟩ frags).2 =
          ((A ++ frags.flatten).take idx).drop p ∧
        joinContent (sepRunFrom sep ⟨A, p, false⟩ frags).2 =
          (A ++ frags.flatten).drop (idx + sep.length) := by
  intro frags
  induction frags with
  | nil =>
    intro A p hA hp idx hidx
    rw [List.flatten_nil, List.append_nil, hA] at hidx
    exact absurd hidx (by simp)
  | cons c rest ih =>
    intro A p hA hp idx hidx
    have hpos : 0 < sep.length := List.length_pos.mpr hsep
    have hSassoc : A ++ (c :: rest).flatten = (A ++ c) ++ rest.flatten := by
      rw [List.flatten_cons, List.append_assoc]
    by_cases hc : c.isEmpty
    · -- empty fragment: the state is unchanged and nothing is emitted
      have hcl : c = [] := List.isEmpty_iff.mp hc
      subst hcl
      have hstep : sepRunFrom sep ⟨A, p, false⟩ ([] :: rest) =
          sepRunFrom sep ⟨A, p, false⟩ rest := by
        simp [sepRunFrom, sepStep]
      rw [hstep]
      have hflat : A ++ ([] :: rest).flatten = A ++ rest.flatten := by
        rw [List.flatten_cons, List.nil_append]
      rw [hflat] at hidx ⊢
      exact ih A p hA hp idx hidx
    · rw [hSassoc] at hidx
      obtain ⟨hoccIdx, hminIdx⟩ := firstOcc_spec sep _ idx hidx
      cases hocc : firstOcc sep (A ++ c) with
      | some i =>
        -- the separator completes inside this fragment: the split happens now
        obtain ⟨hoccAt, hmin⟩ := firstOcc_spec sep (A ++ c) i hocc
        have hbi := occursAt_bound sep (A ++ c) i hsep hoccAt
        have hoccS : occursAt sep ((A ++ c) ++ rest.flatten) i :=
          occursAt_append_left sep (A ++ c) rest.flatten i hsep hoccAt
        have hidxi : idx = i := by
          rcases Nat.lt_trichotomy idx i with hlt | heq | hgt
          · exact absurd
              (occursAt_of_append sep (A ++ c) rest.flatten idx (by omega)
                hoccIdx)
              (hmin idx hlt)
          · exact heq
          · exact absurd hoccS (hminIdx i hgt)
        subst hidxi
        have hstep : sepRunFrom sep ⟨A, p, false⟩ (c :: rest) =
            ((sepRunFrom sep ⟨A ++ c, p, true⟩ rest).1,
              ((if (((A ++ c).take idx).drop p).isEmpty then []
                else [SepEvent.reasoning (((A ++ c).take idx).drop p)]) ++
               (if ((A ++ c).drop (idx + sep.length)).isEmpty then []
                else [SepEvent.content ((A ++ c).drop (idx + sep.length))])) ++
              (sepRunFrom sep ⟨A ++ c, p, true⟩ rest).2) := by
          rw [sepRunFrom_cons, sepStep_some sep A c p idx hc hocc]
        rw [hstep]
        obtain ⟨htr, htc⟩ := sepRunFrom_splitDone sep (A ++ c) p rest
        have hifr : joinReasoning
            (if (((A ++ c).take idx).drop p).isEmpty then []
             else [SepEvent.reasoning (((A ++ c).take idx).drop p)]) =
            ((A ++ c).take idx).drop p := by
          by_cases h1 : (((A ++ c).take idx).drop p).isEmpty
          · rw [if_pos h1, List.isEmpty_iff.mp h1]
            rfl
          · rw [if_neg h1]
            simp [joinReasoning]
        have hifrC : joinContent
            (if (((A ++ c).take idx).drop p).isEmpty then []
             else [SepEvent.reasoning (((A ++ c).take idx).drop p)]) = [] := by
          by_cases h1 : (((A ++ c).take idx).drop p).isEmpty
          · rw [if_pos h1]
            rfl
          · rw [if_neg h1]
            rfl
        have hifc : joinContent
            (if ((A ++ c).drop (idx + sep.length)).isEmpty then []
             else [SepEvent.content ((A ++ c).drop (idx + sep.length))]) =
            (A ++ c).drop (idx + sep.length) := by
          by_cases h2 : ((A ++ c).drop (idx + sep.length)).isEmpty
          · rw [if_pos h2, List.isEmpty_iff.mp h2]
            rfl
          · rw [if_neg h2]
            simp [joinContent]
        have hifcR : joinReasoning
            (if ((A ++ c).drop (idx + sep.length)).isEmpty then []
             else [SepEvent.content ((A ++ c).drop (idx + sep.length))]) =
            [] := by
          by_cases h2 : ((A ++ c).drop (idx + sep.length)).isEmpty
          · rw [if_pos h2]
            rfl
          · rw [if_neg h2]
            rfl
        have hRtake : ((A ++ c) ++ rest.flatten).take idx = (A ++ c).take idx :=
          List.take_append_of_le_length (by omega)
        have hRdrop : ((A ++ c) ++ rest.flatten).drop (idx + sep.length) =
            (A ++ c).drop (idx + sep.length) ++ rest.flatten :=
          List.drop_append_of_le_length hbi
        constructor
        · rw [joinReasoning_append, joinReasoning_append, htr, List.append_nil,
            hifr, hifcR, List.append_nil, hSassoc, hRtake]
        · rw [joinContent_append, joinContent_append, htc, hifrC, hifc,
            List.nil_append, hSassoc, hRdrop]
      | none =>
        -- no occurrence yet: emit the safe part of the accumulator
        have hnone := firstOcc_none_spec sep hsep (A ++ c) hocc
        have hidxBig : (A ++ c).length < idx + sep.length := by
          by_contra hle
          exact hnone idx
            (occursAt_of_append sep (A ++ c) rest.flatten idx (by omega)
              hoccIdx)
        have hidxS := occursAt_bound sep _ idx hsep hoccIdx
        have hp' : p = 0 ∨ p + sep.length ≤ (A ++ c).length := by
          rcases hp with h | h
          · exact Or.inl h
          · exact Or.inr (by simp [List.length_append]; omega)
        by_cases hse :
            (((A ++ c).take (max p ((A ++ c).length - sep.length))).drop
              p).isEmpty
        · -- nothing safe to emit: state keeps the old cursor
          have hstep : sepRunFrom sep ⟨A, p, false⟩ (c :: rest) =
              sepRunFrom sep ⟨A ++ c, p, false⟩ rest := by
            rw [sepRunFrom_cons, sepStep_none_keep sep A c p hc hocc hse]
            rw [List.nil_append]
          rw [hstep, hSassoc]
          exact ih (A ++ c) p hocc hp' idx hidx
        · -- emit the safe slice and advance the cursor
          have hlt : p < max p ((A ++ c).length - sep.length) := by
            by_contra hge
            apply hse
            have : max p ((A ++ c).length - sep.length) ≤ p := by omega
            rw [List.isEmpty_iff]
            have hl := List.length_take (max p ((A ++ c).length - sep.length))
              (A ++ c)
            refine List.eq_nil_of_length_eq_zero ?_
            rw [List.length_drop, hl]
            omega
          have hmaxEq : max p ((A ++ c).length - sep.length) =
              (A ++ c).length - sep.length := by omega
          have hlenBig : sep.length ≤ (A ++ c).length := by omega
          have hinv : max p ((A ++ c).length - sep.length) + sep.length ≤
              (A ++ c).length := by omega
          have hstep : sepRunFrom sep ⟨A, p, false⟩ (c :: rest) =
              ((sepRunFrom sep
                  ⟨A ++ c, max p ((A ++ c).length - sep.length), false⟩
                  rest).1,
                [SepEvent.reasoning
                  (((A ++ c).take (max p ((A ++ c).length - sep.length))).drop
                    p)] ++
                (sepRunFrom sep
                  ⟨A ++ c, max p ((A ++ c).length - sep.length), false⟩
                  rest).2) := by
            rw [sepRunFrom_cons, sepStep_none_emit sep A c p hc hocc hse]
          rw [hstep]
          obtain ⟨htr, htc⟩ := ih (A ++ c)
            (max p ((A ++ c).length - sep.length)) hocc (Or.inr hinv) idx hidx
          have hple : p ≤ max p ((A ++ c).length - sep.length) := by omega
          have hpidx : max p ((A ++ c).length - sep.length) ≤ idx := by omega
          have hidxlen : idx ≤ ((A ++ c) ++ rest.flatten).length := by omega
          constructor
          · rw [joinReasoning_append, htr, hSassoc]
            have hslice : ((A ++ c).take
                (max p ((A ++ c).length - sep.length))).drop p =
                (((A ++ c) ++ rest.flatten).take
                  (max p ((A ++ c).length - sep.length))).drop p := by
              conv_rhs => rw [List.take_append_of_le_length (by omega)]
            have hjr : joinReasoning
                [SepEvent.reasoning
                  (((A ++ c).take (max p ((A ++ c).length - sep.length))).drop
                    p)] =
                ((A ++ c).take (max p ((A ++ c).length - sep.length))).drop
                  p := by
              simp [joinReasoning]
            rw [hjr, hslice]
            exact reasoning_chain ((A ++ c) ++ rest.flatten) p
              (max p ((A ++ c).length - sep.length)) idx hple hpidx hidxlen
          · rw [joinContent_append, htc, hSassoc]
            have hjc : joinContent
                [SepEvent.reasoning
                  (((A ++ c).take (max p ((A ++ c).length - sep.length))).drop
                    p)] = [] := by
              simp [joinContent]
            rw [hjc, List.nil_append]

/-- C8: in direct-upstream passthrough streaming with a configured thinking
separator, for every sequence of upstream content fragments whose
concatenation contains the separator (exactly once, per the claim), the
concatenation of all emitted `reasoning_content` deltas equals the text
before the first occurrence of the separator, the concatenation of all
emitted `content` deltas equals the text after it, and the two channels
partition the stream around the separator — so no byte is emitted in both. -/
theorem C8_thinking_separator_partition (sep : List Char)
    (frags : List (List Char)) (idx : Nat) (hsep : sep ≠ [])
    (hocc : occCount sep frags.flatten = 1)
    (hidx : firstOcc sep frags.flatten = some idx) :
    joinReasoning (sepRun sep frags).2 = frags.flatten.take idx ∧
    joinContent (sepRun sep frags).2 = frags.flatten.drop (idx + sep.length) ∧
    joinReasoning (sepRun sep frags).2 ++ sep ++
      joinContent (sepRun sep frags).2 = frags.flatten := by
  have hbase : firstOcc sep ([] : List Char) = none := by
    have hm : headMatches sep [] = false := by
      rw [Bool.eq_false_iff]
      intro h
      exact hsep ((headMatches_iff sep []).mp h ▸ (by simp [List.take_nil]))
    unfold firstOcc
    rw [hm]
    rfl
  obtain ⟨h1, h2⟩ := sepRunFrom_correct sep hsep frags [] 0 hbase (Or.inl rfl)
    idx (by rw [List.nil_append]; exact hidx)
  rw [List.nil_append, List.drop_zero] at h1
  rw [List.nil_append] at h2
  refine ⟨h1, h2, ?_⟩
  obtain ⟨hO, _⟩ := firstOcc_spec sep frags.flatten idx hidx
  rw [show (sepRun sep frags) = sepRunFrom sep ⟨[], 0, false⟩ frags from rfl,
    h1, h2]
  have hdecomp : frags.flatten.drop idx =
      sep ++ frags.flatten.drop (idx + sep.length) := by
    conv_lhs =>
      rw [← List.take_append_drop sep.length (frags.flatten.drop idx)]
    rw [hO, List.drop_drop]
  conv_rhs => rw [← List.take_append_drop idx frags.flatten]
  rw [hdecomp, List.append_assoc]

/-- C8 witness: the partition theorem at the separator `---` and the
fragment sequence `ra`, `b--`, `-fx` (first occurrence at index 3): the
reasoning channel carries `rab`, the content channel `fx`. -/
theorem C8_thinking_separator_partition_witness :
    joinReasoning
      (sepRun ['-', '-', '-'] [['r', 'a'], ['b', '-', '-'], ['-', 'f', 'x']]).2 =
      ['r', 'a', 'b'] ∧
    joinContent
      (sepRun ['-', '-', '-'] [['r', 'a'], ['b', '-', '-'], ['-', 'f', 'x']]).2 =
      ['f', 'x'] := by
  obtain ⟨h1, h2, h3⟩ := C8_thinking_separator_partition ['-', '-', '-']
    [['r', 'a'], ['b', '-', '-'], ['-', 'f', 'x']] 3 (by decide) (by decide)
    (by decide)
  refine ⟨?_, ?_⟩
  · rw [h1]
    decide
  · rw [h2]
    decide

end LLMBridge
